import Mathlib

/-
Verification of tripforce (src/tripforce/src/tripforce.c), a tripcode
bruteforcer.  Characters are modelled as natural numbers holding the byte
value 0..255 of the C `char`.  All comparisons in the C routines modelled
here behave identically under a signed-char and an unsigned-byte reading
for byte values 0..255 (values 128..255 fail every range test either way),
so plain Nat comparisons are a faithful embedding.
-/

namespace Tripforce

/-! ## Salt derivation pipeline (generate_salt, strip_outliers, replace_punctuation) -/

/-- generate_salt (tripforce.c:321-329): salt[0] = password[1], salt[1] =
password[2], salt[2] = 'H' (72), salt[3] = '.' (46).  The C terminator
byte is not part of the 4-character salt. -/
def generate_salt (password : List Nat) : List Nat :=
  [password.getD 1 0, password.getD 2 0, 72, 46]

/-- Body of the strip_outliers loop (tripforce.c:331-340): a character
below '.' (46) or above 'z' (122) becomes '.'. -/
def strip_char (c : Nat) : Nat :=
  if c < 46 ∨ 122 < c then 46 else c

/-- strip_outliers (tripforce.c:331-340): clamp each of the 4 salt
characters into the range '.'..'z'. -/
def strip_outliers (salt : List Nat) : List Nat :=
  salt.map strip_char

/-- Body of the replace_punctuation loop (tripforce.c:342-353):
':'..'@' (58..64) and '['..'`' (91..96) shift by 6; the sums stay far
below 256, so no char overflow occurs in the C code. -/
def punct_char (c : Nat) : Nat :=
  if 58 ≤ c ∧ c ≤ 64 then c + 6
  else if 91 ≤ c ∧ c ≤ 96 then c + 6
  else c

/-- replace_punctuation (tripforce.c:342-353) over the 4 salt characters. -/
def replace_punctuation (salt : List Nat) : List Nat :=
  salt.map punct_char

/-- The DES salt alphabet ./0-9A-Za-z as the character-range test used by
validate_query (tripforce.c:172-174): 46..57, 65..90, 97..122. -/
def is_trip_char (c : Nat) : Bool :=
  (46 ≤ c && c ≤ 57) || (65 ≤ c && c ≤ 90) || (97 ≤ c && c ≤ 122)

/-- C1: the claim (every sanitized salt character lies in ./0-9A-Za-z, the
shift sending ':;<=>?@' to 'ABCDEFG') fails on the code: replace_punctuation
adds 6 to the range 58..64 ('.' between ':' and '@'), but 'A' - ':' = 7, so
':' (58) becomes '@' (64), which is outside the DES alphabet.  The code
contradicts its own comments ("shift to 'ABCDEFG'", "Clamp salt string to
DES character range './0-9A-Za-z'").  Witnessed by the password
"a:aaaaaa" (second character ':'): the final salt is ['@','a','H','.'] and
'@' fails the alphabet test, while the claim says ':' should map to 'A'. -/
theorem salt_punct_shift_out_of_range :
    replace_punctuation (strip_outliers
      (generate_salt [97, 58, 97, 97, 97, 97, 97, 97])) = [64, 97, 72, 46] ∧
    is_trip_char 64 = false ∧
    punct_char 58 = 64 ∧ punct_char 58 ≠ 65 := by decide

/-- C10: for every input password, the sanitized salt has length exactly 4
and its last two characters are the literal 'H' (72) and '.' (46): both
sanitization passes leave these two appended literals unchanged. -/
theorem salt_literal_suffix_preserved (p : List Nat) :
    (replace_punctuation (strip_outliers (generate_salt p))).length = 4 ∧
    (replace_punctuation (strip_outliers (generate_salt p))).getD 2 0 = 72 ∧
    (replace_punctuation (strip_outliers (generate_salt p))).getD 3 0 = 46 :=
  ⟨rfl, rfl, rfl⟩

/-! ## PRNG and password builder (qrand_r, generate_password) -/

/-- qrand_r (tripforce.c:231-236): the seed is a C `unsigned` (32 bits), so
the linear congruential update wraps modulo 2^32; the returned draw is
bits 16..30 of the new seed, i.e. (seed >> 16) & 0x7FFF.  Returns
(new seed, draw). -/
def qrand_r (seed : Nat) : Nat × Nat :=
  let s := (214013 * seed + 2531011) % 4294967296
  (s, s / 65536 % 32768)

/-- The 92-symbol single-byte Shift-JIS-safe alphabet of generate_password
(tripforce.c:308-309), as byte values: printable ASCII 32..125 without
'#' (35), backslash (92) and '~' (126). -/
def lookup_table : List Nat :=
  [32, 33, 34] ++ List.range' 36 12 ++ List.range' 48 10 ++ List.range' 58 7 ++
    List.range' 65 26 ++ [91] ++ List.range' 93 4 ++ List.range' 97 26 ++
    List.range' 123 3

/-- Loop of generate_password (tripforce.c:313-316): n more characters to
draw from seed state s; each character is lookup[qrand_r(seed) % 92].
Returns (characters, final seed). -/
def generate_password_go : Nat → Nat → List Nat × Nat
  | 0, s => ([], s)
  | n + 1, s =>
    (lookup_table.getD ((qrand_r s).2 % 92) 0 :: (generate_password_go n (qrand_r s).1).1,
      (generate_password_go n (qrand_r s).1).2)

/-- generate_password (tripforce.c:302-318): 8 characters; the C code then
writes a terminator byte at index 8, which is not part of the password.
The output is a pure function of the starting seed, so for a fixed seed it
is deterministic and reproducible. -/
def generate_password (seed : Nat) : List Nat × Nat :=
  generate_password_go 8 seed

/-- The successive qrand_r draws consumed by generate_password_go. -/
def password_draws_go : Nat → Nat → List Nat
  | 0, _ => []
  | n + 1, s => (qrand_r s).2 :: password_draws_go n (qrand_r s).1

/-- The 8 draws consumed by generate_password. -/
def password_draws (seed : Nat) : List Nat :=
  password_draws_go 8 seed

lemma generate_password_go_spec (n s : Nat) :
    (generate_password_go n s).1 =
      (password_draws_go n s).map (fun r => lookup_table.getD (r % 92) 0) := by
  induction n generalizing s with
  | zero => rfl
  | succ n ih => simp [generate_password_go, password_draws_go, ih]

lemma password_draws_go_length (n s : Nat) : (password_draws_go n s).length = n := by
  induction n generalizing s with
  | zero => rfl
  | succ n ih => simp [password_draws_go, ih]

lemma getD_mem_of_lt : ∀ (l : List Nat) (i d : Nat), i < l.length → l.getD i d ∈ l
  | x :: xs, 0, d, _ => by simp
  | x :: xs, i + 1, d, h => by
    simp only [List.getD_cons_succ]
    exact List.mem_cons_of_mem _ (getD_mem_of_lt xs i d (by simpa using h))

/-- C6: generate_password produces exactly 8 characters (the terminator
byte written at index 8 is extra), each equal to the fixed 92-symbol
alphabet indexed by one generator draw reduced modulo 92; every character
is a member of that alphabet, and the result is a function of the starting
seed alone (deterministic and reproducible). -/
theorem generate_password_spec (seed : Nat) :
    (generate_password seed).1.length = 8 ∧
    (generate_password seed).1 =
      (password_draws seed).map (fun r => lookup_table.getD (r % 92) 0) ∧
    ∀ c ∈ (generate_password seed).1, c ∈ lookup_table := by
  refine ⟨?_, generate_password_go_spec 8 seed, ?_⟩
  · rw [generate_password, generate_password_go_spec, List.length_map,
      password_draws_go_length]
  · intro c hc
    rw [generate_password, generate_password_go_spec] at hc
    rcases List.mem_map.1 hc with ⟨r, _, rfl⟩
    refine getD_mem_of_lt _ _ _ ?_
    rw [show lookup_table.length = 92 from rfl]
    exact Nat.mod_lt _ (by norm_num)

/-! ## Query validation (validate_query) and argument handling (main) -/

/-- The 16 allowed tenth characters ".26AEIMQUYcgkosw"
(tripforce.c:158), as byte values. -/
def tenth_char : List Nat :=
  [46, 50, 54, 65, 69, 73, 77, 81, 85, 89, 99, 103, 107, 111, 115, 119]

/-- validate_query (tripforce.c:153-195).  `none` models the NULL pointer
(C: `!query`).  The C function is a chain of early returns: reject when
the length exceeds 10; reject when the character loop finds a character
outside the ranges of is_trip_char; when the length is exactly 10, reject
unless the scan of the 16 candidates finds query[len-1]; otherwise
return 1 (accept). -/
def validate_query : Option (List Nat) → Bool
  | none => false
  | some q =>
    if 10 < q.length then false
    else if q.all is_trip_char then
      if q.length = 10 then tenth_char.contains (q.getD (q.length - 1) 0)
      else true
    else false

/-- The alphabet ./0-9A-Za-z written out as the spec lists it: '.' '/',
the digits, the uppercase letters, the lowercase letters. -/
def allowed_chars : List Nat :=
  [46, 47] ++ List.range' 48 10 ++ List.range' 65 26 ++ List.range' 97 26

lemma is_trip_char_iff_mem (c : Nat) : is_trip_char c = true ↔ c ∈ allowed_chars := by
  simp [is_trip_char, allowed_chars, List.mem_range'_1]
  omega

/-- C5: validate_query accepts exactly the strings over ./0-9A-Za-z of
length at most 10 whose tenth character, when the length is exactly 10, is
one of ".26AEIMQUYcgkosw"; every other string is rejected. -/
theorem validate_query_characterization (q : List Nat) :
    validate_query (some q) = true ↔
      (q.length ≤ 10 ∧ (∀ c ∈ q, c ∈ allowed_chars) ∧
        (q.length = 10 → q.getD 9 0 ∈ tenth_char)) := by
  have hall : (q.all is_trip_char = true) ↔ ∀ c ∈ q, c ∈ allowed_chars := by
    rw [List.all_eq_true]
    exact forall₂_congr fun c _ => is_trip_char_iff_mem c
  simp only [validate_query]
  split_ifs with h1 h2 h3
  · simp only [false_iff]
    rintro ⟨hl, -, -⟩
    omega
  · rw [h3]
    constructor
    · intro h
      exact ⟨by omega, hall.1 h2, fun _ => List.elem_iff.1 h⟩
    · rintro ⟨-, -, hten⟩
      exact List.elem_iff.2 (hten rfl)
  · simp only [true_iff]
    exact ⟨by omega, hall.1 h2, fun h10 => absurd h10 h3⟩
  · simp only [false_iff]
    rintro ⟨-, hmem, -⟩
    exact h2 (hall.2 hmem)

/-- Program modes (tripforce.c:82-88); the numeric value of a query mode
is the argv index holding its query string. -/
inductive PMode
  | NO_QUERY
  | CASE_SENSITIVE
  | CASE_AGNOSTIC
deriving DecidableEq

/-- The argv index tied to each query mode (tripforce.c:85-86). -/
def mode_index : PMode → Nat
  | PMode.NO_QUERY => 0
  | PMode.CASE_SENSITIVE => 1
  | PMode.CASE_AGNOSTIC => 2

/-- Outcome of main's argument handling (tripforce.c:447-459): `help`
(exit 1 after the help screen), `reject` (validate_query failed: exit 1,
no worker pool), or `run mode query` (the pool starts; benchmark mode is
`run NO_QUERY none`). -/
inductive SetupResult
  | help
  | reject
  | run (mode : PMode) (query : Option (List Nat))
deriving DecidableEq

/-- main's argument handling (tripforce.c:447-459).  argv is the full
argument vector including the program name; strings are byte lists.
"-h" is [45,104], "-i" is [45,105].  `argv[mode]` with mode = 2 and
argc = 2 reads argv[argc], which C guarantees to be NULL: modelled by
List.get? returning none. -/
def main_setup (argv : List (List Nat)) : SetupResult :=
  if argv.length = 1 then SetupResult.run PMode.NO_QUERY none
  else if argv.getD 1 [] = [45, 104] then SetupResult.help
  else
    let mode := if argv.getD 1 [] = [45, 105] then PMode.CASE_AGNOSTIC
      else PMode.CASE_SENSITIVE
    let query := argv.get? (mode_index mode)
    if validate_query query then SetupResult.run mode query else SetupResult.reject

/-- C4 counterexample: the claim says an empty query string is rejected
with exit 1, but validate_query accepts the empty string (length 0 passes
every check), and main started with the single argument "" runs the
worker pool in case-sensitive mode with the empty query. -/
theorem empty_query_accepted :
    validate_query (some []) = true ∧
    main_setup [[116], []] = SetupResult.run PMode.CASE_SENSITIVE (some []) ∧
    main_setup [[116], []] ≠ SetupResult.reject := by decide

/-- C4 (amended): an absent query — "-i" given with no following argument,
so argv[2] is the NULL pointer — is rejected by validate_query
(ERROR_NO_QUERY), main returns 1 and no worker pool is started; an empty
query string, by contrast, passes validation. -/
theorem absent_query_rejected (prog : List Nat) :
    main_setup [prog, [45, 105]] = SetupResult.reject ∧
    validate_query none = false :=
  ⟨rfl, rfl⟩

/-! ## Rate tracker (trip_frequency) -/

/-- Operating mode of the averaging counter (tripforce.c:91-94). -/
inductive AvgStats
  | COUNT_ONLY
  | FETCH_DATA

/-- The three static variables of trip_frequency (tripforce.c:243-245):
current_tally, average, time_at_last_call.  Times are modelled as Nat
(seconds); tally and average are C unsigned values. -/
structure FreqState where
  tally : Nat
  average : Nat
  last : Nat
deriving DecidableEq

/-- The initial static state: all three variables start at 0. -/
def freq_init : FreqState := ⟨0, 0, 0⟩

/-- trip_frequency (tripforce.c:240-263), with the wall-clock second t
passed explicitly.  FETCH_DATA returns the average if nonzero, else the
running tally, and returns before touching any state.  COUNT_ONLY in a
fresh second blends `average = average/2.0 + tally/2.0` (exact in double
for 32-bit values; truncation to unsigned makes it ⌊(average+tally)/2⌋)
and resets the tally to 1; in the same second it increments the tally;
either way it records the current second.  Returns (new state, result). -/
def trip_frequency (mode : AvgStats) (t : Nat) (s : FreqState) : FreqState × Nat :=
  match mode with
  | AvgStats.FETCH_DATA => (s, if s.average ≠ 0 then s.average else s.tally)
  | AvgStats.COUNT_ONLY =>
    if t ≠ s.last then
      (⟨1, (s.average + s.tally) / 2, t⟩, 0)
    else
      (⟨s.tally + 1, s.average, t⟩, 0)

/-- n successive COUNT_ONLY calls, all during second t. -/
def repeat_count (n t : Nat) (s : FreqState) : FreqState :=
  match n with
  | 0 => s
  | n + 1 => repeat_count n t (trip_frequency AvgStats.COUNT_ONLY t s).1

/-- C9: trip_frequency with mode FETCH_DATA is read-only: the stored
tally, average and last-tick timestamp are returned unchanged for every
state and wall-clock time; the C function returns before the mutation
statements, which sit in the COUNT_ONLY branch only. -/
theorem fetch_data_read_only (s : FreqState) (t : Nat) :
    (trip_frequency AvgStats.FETCH_DATA t s).1 = s :=
  rfl

set_option maxRecDepth 8000 in
/-- C3 counterexample: from the initial state, 100 COUNT_ONLY calls during
second 1 followed by 50 COUNT_ONLY calls during second 2 leave the average
at (0 + 100)/2 = 50, and FETCH_DATA during second 3 returns 50, not the
claimed 100/2 + 50/2 = 75: the second second's tally is not blended until
a later COUNT_ONLY call. -/
theorem trip_frequency_average_not_75 :
    (trip_frequency AvgStats.FETCH_DATA 3
        (repeat_count 50 2 (repeat_count 100 1 freq_init))).2 = 50 ∧
    (trip_frequency AvgStats.FETCH_DATA 3
        (repeat_count 50 2 (repeat_count 100 1 freq_init))).2 ≠ 75 := by
  constructor
  · rfl
  · decide

lemma repeat_count_same (n t : Nat) (s : FreqState) (h : s.last = t) :
    repeat_count n t s = ⟨s.tally + n, s.average, t⟩ := by
  induction n generalizing s with
  | zero =>
    cases s
    simp_all [repeat_count]
  | succ n ih =>
    rw [repeat_count, trip_frequency]
    simp only [h, ne_eq, not_true_eq_false, if_neg, ite_false]
    rw [ih _ rfl]
    simp
    omega

/-- C3 (amended): with c1 ≥ 2 COUNT_ONLY calls during second t1 and c2 ≥ 1
during a different second t2 (both starting from the initial state, t1 ≠ 0),
a FETCH_DATA call afterwards returns ⌊c1/2⌋ — only the first second's
tally has been blended into the average; the claimed c1/2 + c2/2 (75 for
100 then 50) is not what the code computes (it returns 50 there). -/
theorem trip_frequency_two_second_average (c1 c2 t1 t2 t3 : Nat)
    (hc1 : 2 ≤ c1) (hc2 : 1 ≤ c2) (ht1 : t1 ≠ 0) (ht2 : t2 ≠ t1) :
    (trip_frequency AvgStats.FETCH_DATA t3
        (repeat_count c2 t2 (repeat_count c1 t1 freq_init))).2 = c1 / 2 := by
  obtain ⟨m, rfl⟩ : ∃ m, c1 = m + 1 := ⟨c1 - 1, by omega⟩
  obtain ⟨k, rfl⟩ : ∃ k, c2 = k + 1 := ⟨c2 - 1, by omega⟩
  have e0 : (trip_frequency AvgStats.COUNT_ONLY t1 freq_init).1 = ⟨1, 0, t1⟩ := by
    simp [trip_frequency, freq_init, ht1]
  have e1 : repeat_count (m + 1) t1 freq_init = ⟨1 + m, 0, t1⟩ := by
    rw [repeat_count, e0, repeat_count_same m t1 _ rfl]
  have e2 : (trip_frequency AvgStats.COUNT_ONLY t2 (⟨1 + m, 0, t1⟩ : FreqState)).1
      = ⟨1, (1 + m) / 2, t2⟩ := by
    simp [trip_frequency, ht2]
  have e3 : repeat_count (k + 1) t2 (⟨1 + m, 0, t1⟩ : FreqState)
      = ⟨1 + k, (1 + m) / 2, t2⟩ := by
    rw [repeat_count, e2, repeat_count_same k t2 _ rfl]
  rw [e1, e3]
  have hnz : (1 + m) / 2 ≠ 0 := by omega
  simp [trip_frequency, hnz]
  omega

theorem trip_frequency_two_second_average_witness :
    (trip_frequency AvgStats.FETCH_DATA 3
        (repeat_count 50 2 (repeat_count 100 1 freq_init))).2 = 100 / 2 :=
  trip_frequency_two_second_average 100 50 1 2 3 (by decide) (by decide)
    (by decide) (by decide)

/-! ## Rate condenser (trip_rate_condense) -/

/-- The distance between consecutive IEEE-754 single-precision floats
(unit in the last place) at an integer magnitude in (2^24, 2^32), the
range of the C `unsigned` rate beyond exact conversion: a float has a
24-bit significand, so the ulp in the binade [2^k, 2^(k+1)) is
2^(k - 23). -/
def ulp32 (n : Nat) : Nat :=
  if n < 33554432 then 2
  else if n < 67108864 then 4
  else if n < 134217728 then 8
  else if n < 268435456 then 16
  else if n < 536870912 then 32
  else if n < 1073741824 then 64
  else if n < 2147483648 then 128
  else 256

/-- Rounding of n to the nearest multiple of u, ties to the even
quotient: the IEEE-754 round-to-nearest-even rule at ulp u. -/
def round_even (n u : Nat) : Nat :=
  if 2 * (n % u) < u then n / u * u
  else if u < 2 * (n % u) then (n / u + 1) * u
  else if n / u % 2 = 0 then n / u * u
  else (n / u + 1) * u

/-- Conversion of the C `unsigned` rate to IEEE-754 single-precision
float, as performed by the comparison `rate < trip_magnitude[i]`
(tripforce.c:283, usual arithmetic conversions promote the unsigned
operand to float) and by the casts at lines 286 and 291.  An integer up
to 2^24 converts exactly; a larger one (up to 2^32, the range of the
32-bit rate) is rounded to the nearest multiple of its ulp, ties to the
even significand. -/
def float_round (n : Nat) : Nat :=
  if n ≤ 16777216 then n else round_even n (ulp32 n)

/-- trip_magnitude (tripforce.c:274-280): the exact real values of the
five float constants.  0.0f, 1000.0f, 1e6f and 1e9f hold 0, 10^3, 10^6
and 10^9 exactly (10^9 = 1953125 * 2^9 and 1953125 < 2^24); the last
entry is K_TRIP^4 computed in float arithmetic: 1e9f * 1000.0f = 10^12
rounds to 999999995904 = 15258789 * 2^16, since the ulp at 10^12 is
2^16. -/
def trip_magnitude : List Nat :=
  [0, 1000, 1000000, 1000000000, 999999995904]

/-- trip_prefixes (trip_prefix in tripforce.c:273): byte values of
'\0', 'k', 'm', 'g', 't'. -/
def trip_prefixes : List Nat :=
  [0, 107, 109, 103, 116]

/-- The loop of trip_rate_condense (tripforce.c:281-290): scan
trip_magnitude with index i; at the first i ≠ 0 where the float-converted
rate lies below magnitude[i], emit prefix[i-1] and the converted rate
divided by magnitude[i-1]; if the scan falls through, return the
converted rate with the prefix untouched ('\0' at both call sites).
Both comparison operands are floats whose real values are float_round
rate and the trip_magnitude entries, so the C comparison is exactly this
Nat comparison.  The quotient is kept in ℚ: the C rounds it once more to
float, a relative error below 2^-23 that cannot move any value stated
here across a bound; in the i = 1 branch the divisor magnitude[0] = 0
makes the C float quotient non-finite and unused — both callers test the
prefix first and print the raw integer rate when it is '\0' — so the ℚ
convention 0 there is never relied on. -/
def condense_go (rate : Nat) : Nat → List Nat → Nat × ℚ
  | _, [] => (0, (float_round rate : ℚ))
  | i, m :: rest =>
    if float_round rate < m ∧ i ≠ 0 then
      (trip_prefixes.getD (i - 1) 0,
        (float_round rate : ℚ) / (trip_magnitude.getD (i - 1) 0 : ℚ))
    else condense_go rate (i + 1) rest

/-- trip_rate_condense (tripforce.c:265-292): returns (prefix byte, scaled
value). -/
def trip_rate_condense (rate : Nat) : Nat × ℚ :=
  condense_go rate 0 trip_magnitude

lemma float_round_small {n : Nat} (h : n ≤ 16777216) : float_round n = n := by
  unfold float_round
  rw [if_pos h]

set_option maxHeartbeats 1000000 in
lemma float_round_main (rate : Nat) (h32 : rate < 4294967296) :
    (rate ≤ 16777216 → float_round rate = rate) ∧
    (16777216 < rate →
      16777216 ≤ float_round rate ∧ float_round rate ≤ 4294967296 ∧
      (float_round rate < 1000000000 ↔ rate < 999999968)) := by
  refine ⟨float_round_small, fun h => ?_⟩
  have hfr : float_round rate = round_even rate (ulp32 rate) := by
    unfold float_round
    rw [if_neg (by omega)]
  rw [hfr]
  unfold ulp32
  split_ifs <;> (unfold round_even; split_ifs <;> omega)

/-- C7 counterexample: the rate 999999968 lies below the claimed 10^9
boundary, so the claim selects prefix 'm' (109) with value rate/10^6; but
the float conversion at tripforce.c:283 has ulp 64 at that magnitude, the
tie 999999968 = 10^9 - 32 rounds to the even significand 1.0e9f, the test
(float)rate < 1e9f fails, and the code emits prefix 'g' (103). -/
theorem trip_rate_condense_float_boundary :
    999999968 < 1000000000 ∧
    float_round 999999968 = 1000000000 ∧
    (trip_rate_condense 999999968).1 = 103 ∧
    (trip_rate_condense 999999968).1 ≠ 109 := by decide

/-- C7 (amended): for every unsigned 32-bit rate, trip_rate_condense
auto-scales by the float-converted rate f = float_round rate (equal to
rate below 2^24): it selects the empty prefix for rate < 1000 (the
callers then print the raw integer rate), prefix 'k' (107) with value
rate/1000 for 1000 ≤ rate < 10^6, prefix 'm' (109) with value f/10^6 for
10^6 ≤ rate < 999999968, and prefix 'g' (103) with value f/10^9 for
rate ≥ 999999968 — the float conversion reaches 1e9f at rate = 999999968
already, 32 below the claimed 10^9 boundary, so the rates
999999968..999999999 take the 'g' branch; each scaled value falls under
the next threshold. -/
theorem trip_rate_condense_scaling (rate : Nat) (h32 : rate < 4294967296) :
    (rate < 1000 → (trip_rate_condense rate).1 = 0) ∧
    (1000 ≤ rate → rate < 1000000 →
      trip_rate_condense rate = (107, (rate : ℚ) / 1000) ∧
        (rate : ℚ) / 1000 < 1000) ∧
    (1000000 ≤ rate → rate < 999999968 →
      trip_rate_condense rate = (109, (float_round rate : ℚ) / 1000000) ∧
        (float_round rate : ℚ) / 1000000 < 1000) ∧
    (999999968 ≤ rate →
      trip_rate_condense rate = (103, (float_round rate : ℚ) / 1000000000) ∧
        (float_round rate : ℚ) / 1000000000 < 1000) ∧
    (1000000000 ≤ float_round rate ↔ 999999968 ≤ rate) := by
  obtain ⟨hsmall, hbig⟩ := float_round_main rate h32
  have hdiv : ∀ (x b bound : Nat), 0 < b → x < bound → b * 1000 = bound →
      (x : ℚ) / (b : ℚ) < 1000 := by
    intro x b bound hb hlt hmul
    rw [div_lt_iff₀ (by positivity)]
    have hx : (x : ℚ) < (bound : ℚ) := by exact_mod_cast hlt
    calc (x : ℚ) < (bound : ℚ) := hx
      _ = (b : ℚ) * 1000 := by exact_mod_cast hmul.symm
      _ = 1000 * (b : ℚ) := by ring
  refine ⟨fun hlt => ?_, fun hge hlt => ?_, fun hge hlt => ?_, fun hge => ?_, ?_⟩
  · have hfr : float_round rate = rate := hsmall (by omega)
    simp only [trip_rate_condense, trip_magnitude, condense_go, hfr]
    rw [if_neg (by omega), if_pos (by omega)]
    rfl
  · have hfr : float_round rate = rate := hsmall (by omega)
    constructor
    · simp only [trip_rate_condense, trip_magnitude, condense_go, hfr]
      rw [if_neg (by omega), if_neg (by omega), if_pos (by omega)]
      norm_num [trip_prefixes, trip_magnitude]
    · exact hdiv rate 1000 1000000 (by norm_num) hlt (by norm_num)
  · have hfr9 : float_round rate < 1000000000 := by
      by_cases hc : rate ≤ 16777216
      · rw [hsmall hc]
        omega
      · exact ((hbig (by omega)).2.2).2 hlt
    have hfrlb : 1000000 ≤ float_round rate := by
      by_cases hc : rate ≤ 16777216
      · rw [hsmall hc]
        omega
      · have := (hbig (by omega)).1
        omega
    constructor
    · simp only [trip_rate_condense, trip_magnitude, condense_go]
      rw [if_neg (by omega), if_neg (by omega), if_neg (by omega), if_pos (by omega)]
      norm_num [trip_prefixes, trip_magnitude]
    · exact hdiv (float_round rate) 1000000 1000000000 (by norm_num) hfr9 (by norm_num)
  · have hb := hbig (by omega)
    have hfrge : 1000000000 ≤ float_round rate := by
      rcases hb with ⟨-, -, h3⟩
      by_contra hcon
      have := h3.1 (by omega)
      omega
    have hfrub : float_round rate ≤ 4294967296 := hb.2.1
    constructor
    · simp only [trip_rate_condense, trip_magnitude, condense_go]
      rw [if_neg (by omega), if_neg (by omega), if_neg (by omega), if_neg (by omega),
        if_pos (by omega)]
      norm_num [trip_prefixes, trip_magnitude]
    · exact hdiv (float_round rate) 1000000000 1000000000000 (by norm_num)
        (by omega) (by norm_num)
  · by_cases hc : rate ≤ 16777216
    · rw [hsmall hc]
      omega
    · have h3 := (hbig (by omega)).2.2
      omega

theorem trip_rate_condense_scaling_witness :
    trip_rate_condense 353100 = (107, (353100 : ℚ) / 1000) ∧
      (353100 : ℚ) / 1000 < 1000 :=
  (trip_rate_condense_scaling 353100 (by norm_num)).2.1 (by norm_num) (by norm_num)

/-! ## Case-agnostic substring search (strcasestr) -/

/-- The haystack character fold of strcasestr (tripforce.c:385): an
uppercase ASCII letter gains 0x20 (the sum stays below 256; the modulus
mirrors C char wraparound). -/
def fold_h (h : Nat) : Nat :=
  if 65 ≤ h ∧ h ≤ 90 then (h + 32) % 256 else h

/-- The needle character fold of strcasestr (tripforce.c:386): the C code
tests `h` again — but `h` has already been overwritten by line 385, so
the condition looks at the folded haystack character, not at the needle. -/
def fold_n (h2 n : Nat) : Nat :=
  if 65 ≤ h2 ∧ h2 ≤ 90 then (n + 32) % 256 else n

/-- One character comparison of the inner loop (tripforce.c:382-388). -/
def char_match (h n : Nat) : Bool :=
  fold_h h == fold_n (fold_h h) n

/-- strcasestr (tripforce.c:363-397), on byte lists; returns the first
match offset (the C function returns haystack + i) or none (NULL).  The
inner loop counts matching positions j and breaks when i + len_n exceeds
len_h, so a window matches iff it is in bounds and every position
matches (an empty needle matches at offset 0 whenever the haystack is
nonempty, exactly as in the C loop). -/
def strcasestr (haystack needle : List Nat) : Option Nat :=
  (List.range haystack.length).find? fun i =>
    decide (i + needle.length ≤ haystack.length) &&
      (List.range needle.length).all fun j =>
        char_match (haystack.getD (i + j) 0) (needle.getD j 0)

/-- ASCII uppercase map (for stating the claim's folding property). -/
def ascii_to_upper (c : Nat) : Nat :=
  if 97 ≤ c ∧ c ≤ 122 then c - 32 else c

/-- ASCII lowercase map (for stating the claim's folding property). -/
def ascii_to_lower (c : Nat) : Nat :=
  if 65 ≤ c ∧ c ≤ 90 then c + 32 else c

/-- ASCII letter test (the claim restricts needles to letters). -/
def is_ascii_letter (c : Nat) : Bool :=
  (65 ≤ c && c ≤ 90) || (97 ≤ c && c ≤ 122)

/-- C2: the claimed symmetry match(haystack, needle) =
match(uppercase haystack, lowercase needle) fails on the code at haystack
"a" ([97]) and needle "A" ([65]), an ASCII-letter-only needle: because
line 386 re-tests the already-folded haystack character, the needle is
never folded, so "A" does not match "a" while the uppercased/lowercased
pair "A"/"a" does match.  This is the asymmetric-fold defect the spec
itself flags as a bug to fix. -/
theorem strcasestr_fold_asymmetric :
    is_ascii_letter 65 = true ∧
    strcasestr [97] [65] = none ∧
    ascii_to_upper 97 = 65 ∧ ascii_to_lower 65 = 97 ∧
    strcasestr [ascii_to_upper 97] [ascii_to_lower 65] = some 0 := by decide

/-! ## Run state and cooperative shutdown (run_state, sigint_stop, main) -/

/-- A worker of the pool (tripforce.c:470-503) is either still in its
while (run_state) loop or has exited it. -/
inductive WStatus
  | looping
  | done
deriving DecidableEq

/-- The shared control state: the `run_state` global plus each worker's
loop status. -/
structure SysState where
  run_state : Bool
  workers : List WStatus
deriving DecidableEq

/-- Startup (tripforce.c:461): `run_state = 1` executes before the
parallel region spawns the n workers, so every worker starts looping with
the flag true. -/
def sys_init (n : Nat) : SysState :=
  ⟨true, List.replicate n WStatus.looping⟩

/-- Every transition of the program that touches run_state or a worker's
loop: `sigint` is sigint_stop (tripforce.c:430-433), the only other write
to run_state in the program, and it writes false; `work` is a worker
observing run_state = 1 at the top of its while loop and running one
generate-hash-test iteration (the body never writes run_state); `finish`
is a worker observing run_state = 0 and leaving its loop. -/
inductive SysStep : SysState → SysState → Prop
  | sigint (s : SysState) : SysStep s ⟨false, s.workers⟩
  | work (s : SysState) (i : Nat) (hi : i < s.workers.length)
      (hl : s.workers.get ⟨i, hi⟩ = WStatus.looping)
      (hr : s.run_state = true) : SysStep s s
  | finish (s : SysState) (i : Nat) (hi : i < s.workers.length)
      (hl : s.workers.get ⟨i, hi⟩ = WStatus.looping)
      (hr : s.run_state = false) :
      SysStep s ⟨s.run_state, s.workers.set i WStatus.done⟩

/-- C8: run_state is true at startup before any worker begins; no
transition of the system ever makes run_state true (the interrupt handler,
the only writer after startup, writes false), so once false it stays false
forever; and a looping worker that observes the flag false at the top of
an iteration leaves its loop (the finish transition is the one enabled for
it, and the work transition requires the flag to be true). -/
theorem run_state_terminal :
    (∀ n, (sys_init n).run_state = true) ∧
    (∀ s s', SysStep s s' → s'.run_state = true → s.run_state = true) ∧
    (∀ s s', SysStep s s' → s.run_state = false → s'.run_state = false) ∧
    (∀ s i (hi : i < s.workers.length), s.run_state = false →
      s.workers.get ⟨i, hi⟩ = WStatus.looping →
      SysStep s ⟨s.run_state, s.workers.set i WStatus.done⟩) ∧
    (∀ s s', s.run_state = false → SysStep s s' →
      s' = ⟨false, s.workers⟩ ∨
      ∃ i, ∃ hi : i < s.workers.length,
        s.workers.get ⟨i, hi⟩ = WStatus.looping ∧
        s' = ⟨s.run_state, s.workers.set i WStatus.done⟩) := by
  refine ⟨fun n => rfl, ?_, ?_, ?_, ?_⟩
  · intro s s' hstep
    cases hstep with
    | sigint => intro h; cases h
    | work i hi hl hr => exact fun h => h
    | finish i hi hl hr => exact fun h => h
  · intro s s' hstep hs
    cases hstep with
    | sigint => rfl
    | work i hi hl hr => exact hs
    | finish i hi hl hr => exact hs
  · intro s i hi hf hl
    exact SysStep.finish s i hi hl hf
  · intro s s' hf hstep
    cases hstep with
    | sigint => exact Or.inl rfl
    | work i hi hl hr =>
      rw [hf] at hr
      cases hr
    | finish i hi hl hr =>
      exact Or.inr ⟨i, hi, hl, rfl⟩

end Tripforce
